import Mathlib

/-!
Verification of the command execution and job-control engine of the
flare-shell repository (`src/main.py`, class `MyShell`).

The Python source is shallowly embedded as pure Lean functions:
  * `pySplit` models `shlex.split` (POSIX mode) on the fragment of its
    behaviour the shell exercises: whitespace splitting, single/double
    quote grouping, backslash escapes, and the `ValueError` raised on
    an unbalanced quote.
  * `ShellState` models the mutable fields of `MyShell` that the engine
    touches (`aliases`, `jobs`, `next_job_id`, `foreground_process`,
    `foreground_command`).
  * `execute_command` models `MyShell.execute_command`; observable
    side effects (prints, file opens/closes, process spawns, waits,
    signals) are recorded in an `Eff` trace, and uncaught Python
    exceptions are `Except.error` values.
  * `handle_signal` models `MyShell.handle_signal`, and `sessionRun`
    models the `MyShell.myshell` read/dispatch loop.

Built-in commands other than `echo`, `sleep`, `jobs`, `fg` and `bg` are
out of scope for every claim (the spec declares them simple I/O glue);
they are modelled as a single opaque `Eff.builtinRun` effect that leaves
the engine state unchanged, which is faithful for the fields modelled
here (none of those branches touch `jobs`, `next_job_id` or the
foreground references).
-/

namespace FlareShell

/-- Uncaught Python exceptions that the modelled code can raise. -/
inductive PyErr
  | valueError (msg : String)
  | unboundLocal (name : String)
  | indexError
deriving DecidableEq, Repr

/-- One entry of `self.jobs`: `{"process": ..., "command": ..., "status": ...}`.
The OS process handle is identified by its pid. -/
structure Job where
  pid : Nat
  command : String
  status : String
deriving DecidableEq, Repr

/-- The mutable fields of `MyShell` used by the execution engine
(`__init__` lines 22-27 plus the `foreground_*` attributes assigned in
`myshell`/`handle_signal`).  `fgProcess = none` covers both "attribute
absent" and "attribute is None": the two are indistinguishable to
`handle_signal`, whose guard is `hasattr(...) and self.foreground_process`. -/
structure ShellState where
  aliases : List (String × String)
  jobs : List (Nat × Job)
  next_job_id : Nat
  fgProcess : Option Nat
  fgCommand : Option String
deriving DecidableEq, Repr

/-- State of `MyShell` right after `__init__` (no aliases on disk). -/
def initState : ShellState :=
  { aliases := [], jobs := [], next_job_id := 1, fgProcess := none, fgCommand := none }

/-- One stage of a pipeline as launched by the `'|' in command` branch:
its argument vector, which earlier stage (if any) provides its stdin,
and whether its stdout is a fresh pipe (`subprocess.PIPE`) or inherited. -/
structure Stage where
  argv : List String
  stdinFrom : Option Nat
  stdoutPipe : Bool
deriving DecidableEq, Repr

/-- Observable side effects of one `execute_command` / `handle_signal` call. -/
inductive Eff
  | printed (s : String)
  | opened (path mode : String)
  | closed (path : String)
  | spawnedBg (argv : List String) (pid : Nat)
  | ran (argv : List String) (stdoutR stderrR : Option (String × String))
  | spawnedStage (s : Stage)
  | waitedPipeline
  | waitedOn (pid : Nat)
  | sentSignal (pid : Nat) (sg : String)
  | sleptBuiltin (n : Nat)
  | builtinRun (name : String) (args : List String)
deriving DecidableEq, Repr

/-! ## String helpers mirroring the Python operations used by the source -/

/-- The whitespace characters of `shlex.whitespace` / `str.strip`. -/
def pyWs (c : Char) : Bool :=
  c == ' ' || c == '\t' || c == '\r' || c == '\n'

/-- Tokenizer state of `shlex` in POSIX mode: outside quotes, in a
backslash escape, inside single quotes, inside double quotes, and in a
backslash escape inside double quotes. -/
inductive SMode
  | norm
  | esc
  | sq
  | dq
  | dqesc
deriving DecidableEq, Repr

/-- Core loop of `shlex.split` (POSIX mode, `whitespace_split=True`):
`cur` is the current token (reversed), `started` records whether a token
is in progress (quotes start a token even when empty), `acc` the tokens
emitted so far (reversed). -/
def shlexGo : List Char → SMode → List Char → Bool → List String → Except PyErr (List String)
  | [], .norm, cur, started, acc =>
    .ok (List.reverse (if started then String.mk cur.reverse :: acc else acc))
  | [], .esc, _, _, _ => .error (.valueError "No escaped character")
  | [], .sq, _, _, _ => .error (.valueError "No closing quotation")
  | [], .dq, _, _, _ => .error (.valueError "No closing quotation")
  | [], .dqesc, _, _, _ => .error (.valueError "No escaped character")
  | c :: cs, .norm, cur, started, acc =>
    if pyWs c then
      if started then shlexGo cs .norm [] false (String.mk cur.reverse :: acc)
      else shlexGo cs .norm [] false acc
    else if c = '\'' then shlexGo cs .sq cur true acc
    else if c = '"' then shlexGo cs .dq cur true acc
    else if c = '\\' then shlexGo cs .esc cur started acc
    else shlexGo cs .norm (c :: cur) true acc
  | c :: cs, .esc, cur, _, acc => shlexGo cs .norm (c :: cur) true acc
  | c :: cs, .sq, cur, started, acc =>
    if c = '\'' then shlexGo cs .norm cur started acc
    else shlexGo cs .sq (c :: cur) started acc
  | c :: cs, .dq, cur, started, acc =>
    if c = '"' then shlexGo cs .norm cur started acc
    else if c = '\\' then shlexGo cs .dqesc cur started acc
    else shlexGo cs .dq (c :: cur) started acc
  | c :: cs, .dqesc, cur, started, acc =>
    if c = '"' ∨ c = '\\' then shlexGo cs .dq (c :: cur) started acc
    else shlexGo cs .dq (c :: '\\' :: cur) started acc

/-- Model of `shlex.split(command)` (line 201 etc.). -/
def pySplit (s : String) : Except PyErr (List String) :=
  shlexGo s.data .norm [] false []

/-- Model of Python `" ".join(words)`. -/
def joinWords (l : List String) : String :=
  String.intercalate " " l

/-- Model of Python `str.strip()`. -/
def pyStrip (s : String) : String :=
  String.mk (((s.data.dropWhile pyWs).reverse.dropWhile pyWs).reverse)

/-- Model of Python `c in s` for a single character. -/
def containsChar (s : String) (c : Char) : Bool :=
  s.data.contains c

/-- Number of occurrences of a character in a string. -/
def countChar (c : Char) (s : String) : Nat :=
  s.data.count c

/-- Model of Python `s.endswith(c)` for a single character. -/
def endsWithChar (s : String) (c : Char) : Bool :=
  match s.data.getLast? with
  | some d => d == c
  | none => false

/-- Core of Python `s.split(sep)` for a one-character separator:
keeps empty fields, always returns at least one field. -/
def splitChars (sep : Char) : List Char → List Char → List String
  | [], cur => [String.mk cur.reverse]
  | c :: cs, cur =>
    if c = sep then String.mk cur.reverse :: splitChars sep cs []
    else splitChars sep cs (c :: cur)

/-- Model of Python `command.split('|')` (line 783). -/
def splitOnChar (sep : Char) (s : String) : List String :=
  splitChars sep s.data []

/-- Model of Python `str.isdigit()` (ASCII digits suffice here). -/
def pyIsDigit (s : String) : Bool :=
  !s.data.isEmpty && s.data.all Char.isDigit

/-- Model of Python `int(s)` on a digit string. -/
def parseNat (s : String) : Nat :=
  s.data.foldl (fun n c => n * 10 + (c.toNat - 48)) 0

/-- Association-list lookup modelling `dict` access for the alias table. -/
def lookupStr (k : String) : List (String × String) → Option String
  | [] => none
  | (a, v) :: rest => if a = k then some v else lookupStr k rest

/-- Association-list lookup modelling `job_id in self.jobs` / `self.jobs[job_id]`. -/
def lookupJob (id : Nat) : List (Nat × Job) → Option Job
  | [] => none
  | (k, j) :: rest => if k = id then some j else lookupJob id rest

/-- Removal of a key, modelling `self.jobs.pop(job_id)` / `del self.jobs[job_id]`. -/
def eraseJob (id : Nat) : List (Nat × Job) → List (Nat × Job)
  | [] => []
  | (k, j) :: rest => if k = id then rest else (k, j) :: eraseJob id rest

/-! ## Built-in command dispatch (`execute_command`, lines 211-777)

The source dispatches on `command_name` through a chain of `elif`
branches keyed on pairwise-distinct string literals, so the chain is
equivalent to a name-table lookup.  The five built-ins the claims
exercise (`echo`, `sleep`, `jobs`, `fg`, `bg`) are modelled in full;
the remaining names are listed so that the fall-through condition to
external execution is exact, and their bodies are abstracted as one
opaque effect (they never touch `jobs`, `next_job_id` or the foreground
references). -/

/-- Every `command_name` handled by a built-in branch other than the five
modelled ones, in source order (lines 212-777). -/
def otherBuiltinNames : List String :=
  ["cd", "exit", "help", "alias", "unalias", "history",
   "setenv", "getenv", "setvar", "getvar", "pwd", "ls", "mkdir", "rm",
   "cp", "mv", "cat", "head", "tail", "grep", "find", "du", "df",
   "date", "calc", "checksum", "type", "watch",
   "man", "edit", "tree", "sort", "wc", "patch", "tar", "gzip",
   "gunzip", "mount", "umount", "top", "kill", "login", "logout",
   "whoami", "historysearch", "repeat", "geturl", "config", "theme",
   "keybind", "notify", "progress", "script", "debug", "timeit",
   "network", "ping", "dnslookup", "portscan", "ssh", "ftp", "mail",
   "weather", "translate", "news", "stocks", "currency", "reminder",
   "todo", "calculator", "unitconv", "colortest", "asciiart", "qrgen",
   "barcode", "encrypt", "decrypt", "audioplay", "videoplay",
   "imageview", "pdfview", "systeminfo", "processmonitor",
   "diskmanager", "usermanager", "servicemanager", "packagemanager",
   "virtualenv", "docker", "git", "sqlite", "blockchain", "cloud"]

/-- Whether a name hits any built-in branch of the `elif` chain. -/
def isBuiltinName (s : String) : Bool :=
  s == "echo" || s == "sleep" || s == "jobs" || s == "fg" || s == "bg" ||
    otherBuiltinNames.contains s

/-- Effects of the `sleep` built-in (lines 561-569): a blocking
`time.sleep(int(args[0]))` when the first argument is a digit string,
a usage message otherwise. -/
def sleepEffs (args : List String) : List Eff :=
  match args with
  | a :: _ =>
    if pyIsDigit a then [.sleptBuiltin (parseNat a)]
    else [.printed "Usage: sleep <seconds>"]
  | [] => [.printed "Usage: sleep <seconds>"]

/-- Output line of the `jobs` built-in for one table entry (line 264):
the printed status comes from polling process liveness, not from the
stored `status` field. -/
def jobLine (alive : Nat → Bool) (p : Nat × Job) : Eff :=
  .printed ("[" ++ toString p.1 ++ "] " ++
    (if alive p.2.pid then "Running" else "Done") ++ " " ++ p.2.command)

/-- Loop body of the `jobs` built-in (lines 262-266): iterate over a
snapshot of the table, print each entry, and delete from the live table
every entry whose process has exited. -/
def jobsLoop (alive : Nat → Bool) : List (Nat × Job) → List (Nat × Job) → List (Nat × Job) × List Eff
  | [], cur => (cur, [])
  | p :: rest, cur =>
    let cur2 := if alive p.2.pid then cur else eraseJob p.1 cur
    let r := jobsLoop alive rest cur2
    (r.1, jobLine alive p :: r.2)

/-- The `jobs` built-in (lines 261-267). -/
def jobsBuiltin (alive : Nat → Bool) (js : List (Nat × Job)) : List (Nat × Job) × List Eff :=
  jobsLoop alive js js

/-- The `fg` built-in (lines 268-284).  `intr` tells whether a
`KeyboardInterrupt` arrives while blocked in `process.wait()`; it is
caught and reported as `^C`.  No signal is ever sent to the child. -/
def fgBuiltin (js : List (Nat × Job)) (args : List String) (intr : Bool) :
    List (Nat × Job) × List Eff :=
  match args with
  | a :: _ =>
    if pyIsDigit a then
      match lookupJob (parseNat a) js with
      | some j =>
        (eraseJob (parseNat a) js,
         .printed j.command :: .waitedOn j.pid ::
           (if intr then [.printed "^C"] else []))
      | none => (js, [.printed ("fg: job not found: " ++ toString (parseNat a))])
    else (js, [.printed "Usage: fg [job_id]"])
  | [] => (js, [.printed "Usage: fg [job_id]"])

/-- The `bg` built-in (lines 285-301).  The guard on line 288 reads the
local variable `job_info`, which is never assigned in this branch, so
whenever `job_id in self.jobs` is true the second conjunct raises
`UnboundLocalError`; when it is false the `and` short-circuits and the
final `else` reports the missing job. -/
def bgBuiltin (js : List (Nat × Job)) (args : List String) : Except PyErr (List Eff) :=
  match args with
  | a :: _ =>
    if pyIsDigit a then
      match lookupJob (parseNat a) js with
      | some _ => .error (.unboundLocal "job_info")
      | none => .ok [.printed ("bg: job not found: " ++ toString (parseNat a))]
    else .ok [.printed "Usage: bg [job_id]"]
  | [] => .ok [.printed "Usage: bg [job_id]"]

/-! ## External command execution (lines 779-852) -/

/-- The four output-redirection operators recognised on lines 800-829. -/
def redirOps : List String := [">", ">>", "2>", "&>"]

/-- Result of the redirection scan: either an early return with an error
message (missing target, nothing opened or launched), or the argument
vector before the first operator plus the resolved stdout/stderr targets
(path and open mode) and the file-open effects. -/
inductive ScanResult
  | missing (msg : String)
  | done (commandParts : List String)
      (stdoutR stderrR : Option (String × String)) (openEffs : List Eff)
deriving DecidableEq, Repr

/-- The redirection scan loop (lines 799-830): tokens before the first
operator are collected; the first operator consumes the next token as
its file target (opening it at once) and the scan breaks, discarding any
later tokens; an operator with no following token prints an error and
aborts the command. -/
def redirScan : List String → List String → ScanResult
  | [], acc => .done acc.reverse none none []
  | p :: rest, acc =>
    if p = ">" then
      match rest with
      | t :: _ => .done acc.reverse (some (t, "w")) none [.opened t "w"]
      | [] => .missing "Error: No file specified for output redirection."
    else if p = ">>" then
      match rest with
      | t :: _ => .done acc.reverse (some (t, "a")) none [.opened t "a"]
      | [] => .missing "Error: No file specified for appending output."
    else if p = "2>" then
      match rest with
      | t :: _ => .done acc.reverse none (some (t, "w")) [.opened t "w"]
      | [] => .missing "Error: No file specified for stderr redirection."
    else if p = "&>" then
      match rest with
      | t :: _ => .done acc.reverse (some (t, "w")) (some (t, "w")) [.opened t "w"]
      | [] => .missing "Error: No file specified for stdout and stderr redirection."
    else redirScan rest (p :: acc)

/-- Rendering of a caught exception, as `print(f"Error executing command: {e}")`. -/
def pyErrMsg : PyErr → String
  | .valueError m => m
  | .unboundLocal n => "local variable " ++ n ++ " referenced before assignment"
  | .indexError => "list index out of range"

/-- The launch block (lines 832-852).  Inside `try`: a command whose raw
text ends in `&` re-joins all but the last collected token, re-tokenizes
that text, and if nonempty launches it without waiting and registers a
new job under `next_job_id`; an empty re-tokenization launches nothing.
Other commands run synchronously.  A tokenization error is an
`Exception`, caught on line 846.  The `finally` block closes any opened
redirection handles (for `&>` the same handle is closed twice). -/
def launch (st : ShellState) (command : String) (commandParts : List String)
    (stdoutR stderrR : Option (String × String)) (openEffs : List Eff)
    (newPid : Nat) : ShellState × List Eff :=
  let closeEffs :=
    (match stdoutR with | some (p, _) => [Eff.closed p] | none => []) ++
    (match stderrR with | some (p, _) => [Eff.closed p] | none => [])
  let inner : ShellState × List Eff :=
    if endsWithChar command '&' then
      let bgCmd := pyStrip (joinWords commandParts.dropLast)
      match pySplit bgCmd with
      | .error e => (st, [.printed ("Error executing command: " ++ pyErrMsg e)])
      | .ok [] => (st, [])
      | .ok bgParts =>
        ({ st with
            jobs := st.jobs ++ [(st.next_job_id, ⟨newPid, bgCmd, "running"⟩)],
            next_job_id := st.next_job_id + 1 },
         [.spawnedBg bgParts newPid,
          .printed ("[" ++ toString st.next_job_id ++ "] " ++ bgCmd ++ " &")])
    else (st, [.ran commandParts stdoutR stderrR])
  (inner.1, openEffs ++ inner.2 ++ closeEffs)

/-- Stage descriptor for index `i` of an `n`-stage pipeline (lines
785-790): stdin comes from the previous stage's stdout pipe, stdout is a
fresh pipe except for the last stage, which inherits the shell's. -/
def mkStage (n i : Nat) (argv : List String) : Stage :=
  { argv := argv,
    stdinFrom := if i = 0 then none else some (i - 1),
    stdoutPipe := decide (i + 1 < n) }

/-- Wiring of a list of tokenized stages from index `i` of `n`. -/
def wireFrom (n : Nat) : Nat → List (List String) → List Stage
  | _, [] => []
  | i, a :: rest => mkStage n i a :: wireFrom n (i + 1) rest

/-- Wiring of the whole pipeline. -/
def wireStages (stages : List (List String)) : List Stage :=
  wireFrom stages.length 0 stages

/-- Left-to-right effectful map over `Except`, modelling the list
comprehension `[shlex.split(p) for p in command.split('|')]` (line 783):
the first `ValueError` propagates. -/
def exceptMapM (f : String → Except PyErr (List String)) :
    List String → Except PyErr (List (List String))
  | [] => .ok []
  | a :: l =>
    match f a with
    | .error e => .error e
    | .ok b =>
      match exceptMapM f l with
      | .error e => .error e
      | .ok bs => .ok (b :: bs)

/-- The Pipeline Builder (line 783): split the raw command text on every
`'|'` character (quoting is not consulted) and tokenize each segment. -/
def buildPipeline (command : String) : Except PyErr (List (List String)) :=
  exceptMapM pySplit (splitOnChar '|' command)

/-- Effects of the pipeline launch loop (lines 784-792): spawn each wired
stage in order, then wait on the last spawned process. -/
def pipelineEffs (stages : List (List String)) : List Eff :=
  (wireStages stages).map (fun s => Eff.spawnedStage s) ++
    (if stages.isEmpty then [] else [.waitedPipeline])

/-- The external-execution branch (lines 780-852): the pipe path when the
raw text contains `'|'`, otherwise redirection scan followed by launch. -/
def externalDispatch (st : ShellState) (command : String) (name : String)
    (args : List String) (newPid : Nat) : Except PyErr (ShellState × List Eff) :=
  if containsChar command '|' then
    match buildPipeline command with
    | .error e => .error e
    | .ok stages => .ok (st, pipelineEffs stages)
  else
    match redirScan (name :: args) [] with
    | .missing msg => .ok (st, [.printed msg])
    | .done cps stdoutR stderrR openEffs =>
      .ok (launch st command cps stdoutR stderrR openEffs newPid)

/-- Dispatch on `command_name` (the `elif` chain).  The chain compares
against pairwise-distinct literals, so listing the five modelled names
first and testing the remaining names by membership is equivalent to the
source order. -/
def dispatch (st : ShellState) (command : String) (name : String)
    (args : List String) (alive : Nat → Bool) (intr : Bool) (newPid : Nat) :
    Except PyErr (ShellState × List Eff) :=
  if name = "echo" then .ok (st, [.printed (joinWords args)])
  else if name = "sleep" then .ok (st, sleepEffs args)
  else if name = "jobs" then
    .ok ({ st with jobs := (jobsBuiltin alive st.jobs).1 }, (jobsBuiltin alive st.jobs).2)
  else if name = "fg" then
    .ok ({ st with jobs := (fgBuiltin st.jobs args intr).1 }, (fgBuiltin st.jobs args intr).2)
  else if name = "bg" then
    match bgBuiltin st.jobs args with
    | .error e => .error e
    | .ok effs => .ok (st, effs)
  else if otherBuiltinNames.contains name then .ok (st, [.builtinRun name args])
  else externalDispatch st command name args newPid

/-- Model of `MyShell.execute_command` (lines 197-852).  `alive` is the
liveness oracle consulted by `poll()`, `intr` tells whether a keyboard
interrupt arrives during a blocking `fg` wait, and `newPid` is the pid
the OS would give a newly spawned background process.  The initial
`shlex.split` (line 201) and the re-split after alias expansion
(line 207) are outside every `try` block: their `ValueError` escapes,
as does the `UnboundLocalError` of `bg`. -/
def execute_command (st : ShellState) (command : String) (alive : Nat → Bool)
    (intr : Bool) (newPid : Nat) : Except PyErr (ShellState × List Eff) :=
  if command = "" then .ok (st, [])
  else
    match pySplit command with
    | .error e => .error e
    | .ok [] => .error .indexError
    | .ok (name0 :: args0) =>
      match lookupStr name0 st.aliases with
      | none => dispatch st command name0 args0 alive intr newPid
      | some repl =>
        match pySplit (repl ++ " " ++ joinWords args0) with
        | .error e => .error e
        | .ok [] => .error .indexError
        | .ok (name :: args) =>
          dispatch st (repl ++ " " ++ joinWords args0) name args alive intr newPid

/-- Signals delivered to the shell's own handler. -/
inductive Signum
  | sigtstp
  | other
deriving DecidableEq, Repr

/-- Model of `MyShell.handle_signal` (lines 854-864): on SIGTSTP, when a
foreground process is tracked, print a notice, forward SIGTSTP to it,
register it as a suspended job under `next_job_id`, print the job line,
bump the counter and clear both foreground references; otherwise do
nothing. -/
def handle_signal (st : ShellState) (signum : Signum) : ShellState × List Eff :=
  match signum with
  | .sigtstp =>
    match st.fgProcess with
    | some pid =>
      let cmd := st.fgCommand.getD ""
      ({ st with
          jobs := st.jobs ++ [(st.next_job_id, ⟨pid, cmd, "suspended"⟩)],
          next_job_id := st.next_job_id + 1,
          fgProcess := none, fgCommand := none },
       [.printed "\nSuspended", .sentSignal pid "SIGTSTP",
        .printed ("[" ++ toString st.next_job_id ++ "] Suspended " ++ cmd)])
    | none => (st, [])
  | .other => (st, [])

/-- Error message printed by the redirection scan when the operator has
no following target token (lines 805, 812, 819, 828). -/
def missingMsg (op : String) : String :=
  if op = ">" then "Error: No file specified for output redirection."
  else if op = ">>" then "Error: No file specified for appending output."
  else if op = "2>" then "Error: No file specified for stderr redirection."
  else "Error: No file specified for stdout and stderr redirection."

/-- File open mode used for a redirection operator (`>>` appends, the
other three truncate-write). -/
def redirMode (op : String) : String :=
  if op = ">>" then "a" else "w"

/-- Close effects emitted by the `finally` block for the single operator
`op` with target `t`: `&>` stores the same handle in both redirect slots
and hence closes it twice. -/
def closeEffsOf (op t : String) : List Eff :=
  if op = "&>" then [.closed t, .closed t] else [.closed t]

/-- Keys of the table entries the `jobs` loop observes as Done. -/
def deadKeys (alive : Nat → Bool) (l : List (Nat × Job)) : List Nat :=
  (l.filter (fun p => !alive p.2.pid)).map Prod.fst

/-- Sequential removal of a list of keys. -/
def eraseAll : List Nat → List (Nat × Job) → List (Nat × Job)
  | [], c => c
  | k :: ks, c => eraseAll ks (eraseJob k c)

/-- Shape of the job-table/counter change made by any single engine step:
either no job is created (the counter is untouched and the table only
loses entries), or exactly one job is created, keyed by the old counter
value, and the counter advances by exactly one. -/
def creationStep (st st2 : ShellState) : Prop :=
  (st2.next_job_id = st.next_job_id ∧ st2.jobs.Sublist st.jobs) ∨
  (st2.next_job_id = st.next_job_id + 1 ∧
    ∃ j, st2.jobs = st.jobs ++ [(st.next_job_id, j)])

/-- Every registered job id is below the session counter. -/
def jobIdBound (st : ShellState) : Prop :=
  ∀ p ∈ st.jobs, p.1 < st.next_job_id

/-- Outcome of feeding a list of input lines to the `myshell` loop. -/
inductive SessionResult
  | endOfInput (st : ShellState)
  | crashed (e : PyErr)
deriving DecidableEq, Repr

/-- Model of the `MyShell.myshell` dispatch loop (lines 909-927) on a
fixed sequence of typed lines (end of the list is the EOF that breaks
the loop).  Each line is stripped; nonempty lines are recorded as the
foreground command text and dispatched.  Only the `input()` call is
guarded by `try`, so an exception escaping `execute_command` terminates
the session.  Note that `foreground_process` is assigned `None` after
the call (line 926) and is never assigned a process handle.  The
liveness/interrupt/pid oracles are fixed arbitrarily; no claim about
the loop depends on them. -/
def sessionRun (st : ShellState) : List String → SessionResult
  | [] => .endOfInput st
  | line :: rest =>
    let cmd := pyStrip line
    if cmd = "" then sessionRun st rest
    else
      match execute_command { st with fgCommand := some cmd } cmd (fun _ => true) false st.next_job_id with
      | .error e => .crashed e
      | .ok (st2, _) => sessionRun { st2 with fgProcess := none, fgCommand := none } rest

/-! ## Supporting lemmas -/

theorem splitChars_length (sep : Char) :
    ∀ (l cur : List Char), (splitChars sep l cur).length = l.count sep + 1 := by
  intro l
  induction l with
  | nil => intro cur; simp [splitChars]
  | cons c cs ih =>
    intro cur
    by_cases h : c = sep
    · simp [splitChars, h, List.count_cons, ih]
    · simp [splitChars, h, List.count_cons, ih, Ne.symm h]

theorem splitOnChar_length (sep : Char) (s : String) :
    (splitOnChar sep s).length = countChar sep s + 1 :=
  splitChars_length sep s.data []

theorem exceptMapM_length (f : String → Except PyErr (List String)) :
    ∀ (l : List String) (r : List (List String)),
      exceptMapM f l = .ok r → r.length = l.length := by
  intro l
  induction l with
  | nil => intro r h; simp [exceptMapM] at h; simp [← h]
  | cons a l ih =>
    intro r h
    simp only [exceptMapM] at h
    cases hf : f a with
    | error e => rw [hf] at h; exact absurd h (by simp)
    | ok b =>
      rw [hf] at h
      cases hm : exceptMapM f l with
      | error e => rw [hm] at h; exact absurd h (by simp)
      | ok bs =>
        rw [hm] at h
        cases h
        simp [ih bs hm]

theorem buildPipeline_length (cmd : String) (stages : List (List String))
    (h : buildPipeline cmd = .ok stages) :
    stages.length = countChar '|' cmd + 1 := by
  have := exceptMapM_length pySplit (splitOnChar '|' cmd) stages h
  rw [this, splitOnChar_length]

theorem wireFrom_length (n : Nat) :
    ∀ (l : List (List String)) (i : Nat), (wireFrom n i l).length = l.length := by
  intro l
  induction l with
  | nil => intro i; simp [wireFrom]
  | cons a rest ih => intro i; simp [wireFrom, ih]

theorem wireFrom_getElem (n : Nat) :
    ∀ (l : List (List String)) (i k : Nat),
      (wireFrom n i l)[k]? = (l[k]?).map (mkStage n (i + k)) := by
  intro l
  induction l with
  | nil => intro i k; simp [wireFrom]
  | cons a rest ih =>
    intro i k
    cases k with
    | zero => simp [wireFrom]
    | succ k =>
      simp only [wireFrom, List.getElem?_cons_succ]
      rw [ih (i + 1) k]
      have harith : i + 1 + k = i + (k + 1) := by omega
      rw [harith]

theorem redirScan_no_ops :
    ∀ (l acc : List String), (∀ t ∈ l, t ∉ redirOps) →
      redirScan l acc = .done (acc.reverse ++ l) none none [] := by
  intro l
  induction l with
  | nil => intro acc _; simp [redirScan]
  | cons p rest ih =>
    intro acc h
    have hp : p ∉ redirOps := h p (List.mem_cons_self p rest)
    simp only [redirOps, List.mem_cons, List.not_mem_nil, or_false, not_or] at hp
    obtain ⟨h1, h2, h3, h4⟩ := hp
    simp only [redirScan, if_neg h1, if_neg h2, if_neg h3, if_neg h4]
    rw [ih (p :: acc) (fun t ht => h t (List.mem_cons_of_mem p ht))]
    simp

theorem redirScan_missing :
    ∀ (l acc : List String) (op : String), op ∈ redirOps →
      (∀ t ∈ l, t ∉ redirOps) →
      redirScan (l ++ [op]) acc = .missing (missingMsg op) := by
  intro l
  induction l with
  | nil =>
    intro acc op hop _
    simp only [redirOps, List.mem_cons, List.not_mem_nil, or_false] at hop
    rcases hop with rfl | rfl | rfl | rfl <;> simp [redirScan, missingMsg]
  | cons p rest ih =>
    intro acc op hop h
    have hp : p ∉ redirOps := h p (List.mem_cons_self p rest)
    simp only [redirOps, List.mem_cons, List.not_mem_nil, or_false, not_or] at hp
    obtain ⟨h1, h2, h3, h4⟩ := hp
    simp only [List.cons_append, redirScan, if_neg h1, if_neg h2, if_neg h3, if_neg h4]
    exact ih (p :: acc) op hop (fun t ht => h t (List.mem_cons_of_mem p ht))

theorem eraseJob_sublist (id : Nat) :
    ∀ l : List (Nat × Job), (eraseJob id l).Sublist l := by
  intro l
  induction l with
  | nil => simp [eraseJob]
  | cons p rest ih =>
    rcases p with ⟨k, j⟩
    by_cases h : k = id
    · simp [eraseJob, h]
    · simpa [eraseJob, h] using List.Sublist.cons₂ (k, j) ih

theorem eraseAll_sublist : ∀ (ks : List Nat) (c : List (Nat × Job)),
    (eraseAll ks c).Sublist c := by
  intro ks
  induction ks with
  | nil => intro c; simp [eraseAll]
  | cons k ks ih =>
    intro c
    exact (ih (eraseJob k c)).trans (eraseJob_sublist k c)

theorem jobsLoop_effects (alive : Nat → Bool) :
    ∀ (l cur : List (Nat × Job)), (jobsLoop alive l cur).2 = l.map (jobLine alive) := by
  intro l
  induction l with
  | nil => intro cur; simp [jobsLoop]
  | cons p rest ih => intro cur; simp [jobsLoop, ih]

theorem jobsLoop_state (alive : Nat → Bool) :
    ∀ (l cur : List (Nat × Job)),
      (jobsLoop alive l cur).1 = eraseAll (deadKeys alive l) cur := by
  intro l
  induction l with
  | nil => intro cur; simp [jobsLoop, deadKeys, eraseAll]
  | cons p rest ih =>
    intro cur
    by_cases h : alive p.2.pid
    · simp [jobsLoop, h, ih, deadKeys, List.filter_cons]
    · simp [jobsLoop, h, ih, deadKeys, List.filter_cons, eraseAll]

theorem jobsBuiltin_sublist (alive : Nat → Bool) (js : List (Nat × Job)) :
    (jobsBuiltin alive js).1.Sublist js := by
  rw [jobsBuiltin, jobsLoop_state]
  exact eraseAll_sublist _ js

theorem eraseJob_of_notMem (id : Nat) :
    ∀ js : List (Nat × Job), id ∉ js.map Prod.fst → eraseJob id js = js := by
  intro js
  induction js with
  | nil => intro _; rfl
  | cons p rest ih =>
    intro h
    simp only [List.map_cons, List.mem_cons, not_or] at h
    rcases p with ⟨k, j⟩
    simp only at h
    simp [eraseJob, Ne.symm h.1, ih h.2]

theorem eraseAll_cons_of_notMem :
    ∀ (ks : List Nat) (p : Nat × Job) (c : List (Nat × Job)),
      (∀ k ∈ ks, k ≠ p.1) → eraseAll ks (p :: c) = p :: eraseAll ks c := by
  intro ks
  induction ks with
  | nil => intro p c _; rfl
  | cons k ks ih =>
    intro p c h
    have hk : k ≠ p.1 := h k (List.mem_cons_self k ks)
    rcases p with ⟨k1, j1⟩
    simp only at hk
    simp only [eraseAll, eraseJob, if_neg (Ne.symm hk)]
    exact ih _ _ (fun k2 hk2 => h k2 (List.mem_cons_of_mem k hk2))

theorem deadKeys_subset (alive : Nat → Bool) (l : List (Nat × Job)) :
    ∀ k ∈ deadKeys alive l, k ∈ l.map Prod.fst := by
  intro k hk
  simp only [deadKeys, List.mem_map, List.mem_filter] at hk
  obtain ⟨p, ⟨hp, _⟩, hfst⟩ := hk
  exact List.mem_map.mpr ⟨p, hp, hfst⟩

theorem eraseAll_deadKeys_filter (alive : Nat → Bool) :
    ∀ l : List (Nat × Job), (l.map Prod.fst).Nodup →
      eraseAll (deadKeys alive l) l = l.filter (fun p => alive p.2.pid) := by
  intro l
  induction l with
  | nil => intro _; rfl
  | cons p rest ih =>
    intro h
    simp only [List.map_cons, List.nodup_cons] at h
    obtain ⟨hp, hrest⟩ := h
    by_cases ha : alive p.2.pid
    · have hdk : deadKeys alive (p :: rest) = deadKeys alive rest := by
        simp [deadKeys, List.filter_cons, ha]
      rw [hdk, eraseAll_cons_of_notMem _ p rest
        (fun k hk => fun he => hp (he ▸ deadKeys_subset alive rest k hk)), ih hrest]
      simp [List.filter_cons, ha]
    · have hdk : deadKeys alive (p :: rest) = p.1 :: deadKeys alive rest := by
        simp [deadKeys, List.filter_cons, ha]
      rcases p with ⟨k1, j1⟩
      simp only at hdk hp
      rw [hdk]
      have he : eraseJob k1 ((k1, j1) :: rest) = rest := by simp [eraseJob]
      simp only [eraseAll, he]
      rw [ih hrest]
      simp [List.filter_cons, ha]

theorem jobsBuiltin_state_filter (alive : Nat → Bool) (js : List (Nat × Job))
    (h : (js.map Prod.fst).Nodup) :
    (jobsBuiltin alive js).1 = js.filter (fun p => alive p.2.pid) := by
  rw [jobsBuiltin, jobsLoop_state]
  exact eraseAll_deadKeys_filter alive js h

theorem jobsBuiltin_effects (alive : Nat → Bool) (js : List (Nat × Job)) :
    (jobsBuiltin alive js).2 = js.map (jobLine alive) :=
  jobsLoop_effects alive js js

theorem isBuiltinName_false_elim (n : String) (h : isBuiltinName n = false) :
    n ≠ "echo" ∧ n ≠ "sleep" ∧ n ≠ "jobs" ∧ n ≠ "fg" ∧ n ≠ "bg" ∧
      otherBuiltinNames.contains n = false := by
  simp only [isBuiltinName, Bool.or_eq_false_iff, beq_eq_false_iff_ne] at h
  obtain ⟨⟨⟨⟨⟨h1, h2⟩, h3⟩, h4⟩, h5⟩, h6⟩ := h
  exact ⟨h1, h2, h3, h4, h5, h6⟩

theorem dispatch_not_builtin (st : ShellState) (command name : String)
    (args : List String) (alive : Nat → Bool) (intr : Bool) (newPid : Nat)
    (h : isBuiltinName name = false) :
    dispatch st command name args alive intr newPid =
      externalDispatch st command name args newPid := by
  obtain ⟨h1, h2, h3, h4, h5, h6⟩ := isBuiltinName_false_elim name h
  have h7 : name ∉ otherBuiltinNames := by simpa using h6
  simp [dispatch, h1, h2, h3, h4, h5, h7]

theorem creationStep_refl (st : ShellState) : creationStep st st :=
  Or.inl ⟨rfl, List.Sublist.refl _⟩

theorem fgBuiltin_sublist (js : List (Nat × Job)) (args : List String) (intr : Bool) :
    (fgBuiltin js args intr).1.Sublist js := by
  unfold fgBuiltin
  match args with
  | [] => exact List.Sublist.refl _
  | a :: rest =>
    by_cases h : pyIsDigit a = true
    · simp only [h, if_true]
      cases hl : lookupJob (parseNat a) js with
      | some j => simpa using eraseJob_sublist (parseNat a) js
      | none => simp
    · simp [h]

theorem launch_creation (st : ShellState) (command : String) (cps : List String)
    (o e : Option (String × String)) (oe : List Eff) (newPid : Nat) :
    creationStep st (launch st command cps o e oe newPid).1 := by
  simp only [launch]
  split
  · split
    · exact creationStep_refl st
    · exact creationStep_refl st
    · exact Or.inr ⟨rfl, _, rfl⟩
  · exact creationStep_refl st

theorem launch_fg_fields (st : ShellState) (command : String) (cps : List String)
    (o e : Option (String × String)) (oe : List Eff) (newPid : Nat) :
    (launch st command cps o e oe newPid).1.fgProcess = st.fgProcess ∧
      (launch st command cps o e oe newPid).1.fgCommand = st.fgCommand := by
  simp only [launch]
  split
  · split <;> exact ⟨rfl, rfl⟩
  · exact ⟨rfl, rfl⟩

theorem externalDispatch_creation (st : ShellState) (command name : String)
    (args : List String) (newPid : Nat) (st2 : ShellState) (effs : List Eff)
    (h : externalDispatch st command name args newPid = .ok (st2, effs)) :
    creationStep st st2 := by
  unfold externalDispatch at h
  split at h
  · split at h
    · exact absurd h (by simp)
    · simp only [Except.ok.injEq, Prod.mk.injEq] at h
      obtain ⟨h1, -⟩ := h
      subst h1
      exact creationStep_refl _
  · split at h
    · simp only [Except.ok.injEq, Prod.mk.injEq] at h
      obtain ⟨h1, -⟩ := h
      subst h1
      exact creationStep_refl _
    · rename_i sc cps so se oe heq
      simp only [Except.ok.injEq] at h
      have h2 : st2 = (launch st command cps so se oe newPid).1 := by rw [h]
      rw [h2]
      exact launch_creation _ _ _ _ _ _ _

theorem externalDispatch_fg_fields (st : ShellState) (command name : String)
    (args : List String) (newPid : Nat) (st2 : ShellState) (effs : List Eff)
    (h : externalDispatch st command name args newPid = .ok (st2, effs)) :
    st2.fgProcess = st.fgProcess ∧ st2.fgCommand = st.fgCommand := by
  unfold externalDispatch at h
  split at h
  · split at h
    · exact absurd h (by simp)
    · simp only [Except.ok.injEq, Prod.mk.injEq] at h
      obtain ⟨h1, -⟩ := h
      subst h1
      exact ⟨rfl, rfl⟩
  · split at h
    · simp only [Except.ok.injEq, Prod.mk.injEq] at h
      obtain ⟨h1, -⟩ := h
      subst h1
      exact ⟨rfl, rfl⟩
    · rename_i sc cps so se oe heq
      simp only [Except.ok.injEq] at h
      have h2 : st2 = (launch st command cps so se oe newPid).1 := by rw [h]
      rw [h2]
      exact launch_fg_fields _ _ _ _ _ _ _

theorem dispatch_creation (st : ShellState) (command name : String)
    (args : List String) (alive : Nat → Bool) (intr : Bool) (newPid : Nat)
    (st2 : ShellState) (effs : List Eff)
    (h : dispatch st command name args alive intr newPid = .ok (st2, effs)) :
    creationStep st st2 := by
  unfold dispatch at h
  split at h
  · simp only [Except.ok.injEq, Prod.mk.injEq] at h
    obtain ⟨h1, -⟩ := h
    subst h1
    exact creationStep_refl _
  · split at h
    · simp only [Except.ok.injEq, Prod.mk.injEq] at h
      obtain ⟨h1, -⟩ := h
      subst h1
      exact creationStep_refl _
    · split at h
      · simp only [Except.ok.injEq, Prod.mk.injEq] at h
        obtain ⟨h1, -⟩ := h
        subst h1
        exact Or.inl ⟨rfl, jobsBuiltin_sublist alive st.jobs⟩
      · split at h
        · simp only [Except.ok.injEq, Prod.mk.injEq] at h
          obtain ⟨h1, -⟩ := h
          subst h1
          exact Or.inl ⟨rfl, fgBuiltin_sublist st.jobs args intr⟩
        · split at h
          · split at h
            · exact absurd h (by simp)
            · simp only [Except.ok.injEq, Prod.mk.injEq] at h
              obtain ⟨h1, -⟩ := h
              subst h1
              exact creationStep_refl _
          · split at h
            · simp only [Except.ok.injEq, Prod.mk.injEq] at h
              obtain ⟨h1, -⟩ := h
              subst h1
              exact creationStep_refl _
            · exact externalDispatch_creation _ _ _ _ _ _ _ h

theorem dispatch_fg_fields (st : ShellState) (command name : String)
    (args : List String) (alive : Nat → Bool) (intr : Bool) (newPid : Nat)
    (st2 : ShellState) (effs : List Eff)
    (h : dispatch st command name args alive intr newPid = .ok (st2, effs)) :
    st2.fgProcess = st.fgProcess ∧ st2.fgCommand = st.fgCommand := by
  unfold dispatch at h
  split at h
  · simp only [Except.ok.injEq, Prod.mk.injEq] at h
    obtain ⟨h1, -⟩ := h
    subst h1
    exact ⟨rfl, rfl⟩
  · split at h
    · simp only [Except.ok.injEq, Prod.mk.injEq] at h
      obtain ⟨h1, -⟩ := h
      subst h1
      exact ⟨rfl, rfl⟩
    · split at h
      · simp only [Except.ok.injEq, Prod.mk.injEq] at h
        obtain ⟨h1, -⟩ := h
        subst h1
        exact ⟨rfl, rfl⟩
      · split at h
        · simp only [Except.ok.injEq, Prod.mk.injEq] at h
          obtain ⟨h1, -⟩ := h
          subst h1
          exact ⟨rfl, rfl⟩
        · split at h
          · split at h
            · exact absurd h (by simp)
            · simp only [Except.ok.injEq, Prod.mk.injEq] at h
              obtain ⟨h1, -⟩ := h
              subst h1
              exact ⟨rfl, rfl⟩
          · split at h
            · simp only [Except.ok.injEq, Prod.mk.injEq] at h
              obtain ⟨h1, -⟩ := h
              subst h1
              exact ⟨rfl, rfl⟩
            · exact externalDispatch_fg_fields _ _ _ _ _ _ _ h

theorem execute_command_creation (st : ShellState) (command : String)
    (alive : Nat → Bool) (intr : Bool) (newPid : Nat)
    (st2 : ShellState) (effs : List Eff)
    (h : execute_command st command alive intr newPid = .ok (st2, effs)) :
    creationStep st st2 := by
  unfold execute_command at h
  split at h
  · simp only [Except.ok.injEq, Prod.mk.injEq] at h
    obtain ⟨h1, -⟩ := h
    subst h1
    exact creationStep_refl _
  · split at h
    · exact absurd h (by simp)
    · exact absurd h (by simp)
    · split at h
      · exact dispatch_creation _ _ _ _ _ _ _ _ _ h
      · split at h
        · exact absurd h (by simp)
        · exact absurd h (by simp)
        · exact dispatch_creation _ _ _ _ _ _ _ _ _ h

theorem execute_command_fg_fields (st : ShellState) (command : String)
    (alive : Nat → Bool) (intr : Bool) (newPid : Nat)
    (st2 : ShellState) (effs : List Eff)
    (h : execute_command st command alive intr newPid = .ok (st2, effs)) :
    st2.fgProcess = st.fgProcess ∧ st2.fgCommand = st.fgCommand := by
  unfold execute_command at h
  split at h
  · simp only [Except.ok.injEq, Prod.mk.injEq] at h
    obtain ⟨h1, -⟩ := h
    subst h1
    exact ⟨rfl, rfl⟩
  · split at h
    · exact absurd h (by simp)
    · exact absurd h (by simp)
    · split at h
      · exact dispatch_fg_fields _ _ _ _ _ _ _ _ _ h
      · split at h
        · exact absurd h (by simp)
        · exact absurd h (by simp)
        · exact dispatch_fg_fields _ _ _ _ _ _ _ _ _ h

theorem handle_signal_creation (st : ShellState) (signum : Signum) :
    creationStep st (handle_signal st signum).1 := by
  unfold handle_signal
  match signum with
  | .other => exact creationStep_refl st
  | .sigtstp =>
    cases h : st.fgProcess with
    | none => exact creationStep_refl st
    | some pid => exact Or.inr ⟨rfl, _, rfl⟩

theorem creationStep_mono (st st2 : ShellState) (h : creationStep st st2) :
    st.next_job_id ≤ st2.next_job_id ∧ (jobIdBound st → jobIdBound st2) := by
  rcases h with ⟨h1, h2⟩ | ⟨h1, j, h2⟩
  · refine ⟨le_of_eq h1.symm, fun hb p hp => ?_⟩
    rw [h1]
    exact hb p (h2.subset hp)
  · refine ⟨by omega, fun hb p hp => ?_⟩
    rw [h2] at hp
    rcases List.mem_append.mp hp with hp | hp
    · have := hb p hp
      omega
    · simp only [List.mem_singleton] at hp
      subst hp
      simp only [h1]
      omega

theorem execute_command_eq_dispatch (st : ShellState) (command name : String)
    (args : List String) (alive : Nat → Bool) (intr : Bool) (newPid : Nat)
    (hs : pySplit command = .ok (name :: args))
    (halias : lookupStr name st.aliases = none) :
    execute_command st command alive intr newPid =
      dispatch st command name args alive intr newPid := by
  have hcmd : command ≠ "" := by
    intro h
    subst h
    rw [show pySplit "" = Except.ok [] from rfl] at hs
    simp at hs
  unfold execute_command
  simp only [if_neg hcmd, hs, halias]

/-! ## Claims -/

/-- C1: the claim says every error from one dispatched command is caught
at the Dispatch Loop boundary and the session continues; in particular a
line with unbalanced quoting is reported as a syntax error of that line
only.  In the code, `shlex.split` (line 201) is outside every `try`
block and the `myshell` loop (lines 912-925) guards only the `input()`
call, so the `ValueError` raised for `echo "unterminated` propagates and
terminates the whole session: the following line is never dispatched.
A well-formed line, by contrast, completes and returns to the prompt. -/
theorem uncaught_quote_error_crashes_session :
    sessionRun initState ["echo \"unterminated", "echo done"] =
      .crashed (.valueError "No closing quotation") ∧
    sessionRun initState ["echo hi"] = .endOfInput initState := by
  exact ⟨rfl, rfl⟩

/-- C2: the claim describes suspend handling for a foreground process
being waited on.  `handle_signal` (lines 854-864) would indeed do the
claimed work, but its guard tests `self.foreground_process`, and the
dispatch loop never assigns that attribute a process handle: it is only
ever set to `None` (lines 863, 926); the foreground `subprocess.run`
(line 843) is a local variable.  Hence (1) in the start state and (3) in
every state `execute_command` can produce, `foreground_process` is
`None`, and (2) with `foreground_process` unset the SIGTSTP handler does
nothing at all: no forwarding, no notice, no job registration. -/
theorem sigtstp_handler_never_fires :
    initState.fgProcess = none ∧
    (∀ st : ShellState, st.fgProcess = none →
      handle_signal st .sigtstp = (st, [])) ∧
    (∀ (st : ShellState) (command : String) (alive : Nat → Bool) (intr : Bool)
        (newPid : Nat) (st2 : ShellState) (effs : List Eff),
        execute_command st command alive intr newPid = .ok (st2, effs) →
        st2.fgProcess = st.fgProcess) := by
  refine ⟨rfl, ?_, ?_⟩
  · intro st h
    simp only [handle_signal, h]
  · intro st command alive intr newPid st2 effs h
    exact (execute_command_fg_fields st command alive intr newPid st2 effs h).1

/-- Witness for C2 at a concrete input: delivering SIGTSTP in the start
state (where no foreground process is tracked) changes nothing and
prints nothing. -/
theorem sigtstp_handler_never_fires_witness :
    handle_signal initState .sigtstp = (initState, []) :=
  sigtstp_handler_never_fires.2.1 initState rfl

/-- C3: the claim requires `bg <id>` never to raise.  In the code
(lines 285-301) the guard `job_id in self.jobs and job_info["process"]...`
reads the local `job_info`, which is never assigned in this branch, so
whenever the job id exists — suspended or not — the command raises an
uncaught `UnboundLocalError` (which terminates the session, see C1);
only the id-not-found and usage cases behave as described. -/
theorem bg_raises_unbound_local (st : ShellState) (command a : String)
    (rest : List String) (alive : Nat → Bool) (intr : Bool) (newPid : Nat)
    (hs : pySplit command = .ok ("bg" :: a :: rest))
    (halias : lookupStr "bg" st.aliases = none)
    (hd : pyIsDigit a = true) :
    (∀ j, lookupJob (parseNat a) st.jobs = some j →
      execute_command st command alive intr newPid =
        .error (.unboundLocal "job_info")) ∧
    (lookupJob (parseNat a) st.jobs = none →
      execute_command st command alive intr newPid =
        .ok (st, [.printed ("bg: job not found: " ++ toString (parseNat a))])) := by
  have heq := execute_command_eq_dispatch st command "bg" (a :: rest) alive intr newPid hs halias
  constructor
  · intro j hj
    rw [heq]
    simp [dispatch, bgBuiltin, hd, hj]
  · intro hj
    rw [heq]
    simp [dispatch, bgBuiltin, hd, hj]

/-- Witness for C3: with job 1 registered (status running), `bg 1`
raises; with an empty job table, `bg 1` reports and is a no-op. -/
theorem bg_raises_unbound_local_witness :
    execute_command
        { initState with
            jobs := [(1, ⟨42, "sleep 99", "running"⟩)], next_job_id := 2 }
        "bg 1" (fun _ => true) false 0 = .error (.unboundLocal "job_info") ∧
    execute_command initState "bg 1" (fun _ => true) false 0 =
      .ok (initState, [.printed "bg: job not found: 1"]) := by
  constructor
  · exact (bg_raises_unbound_local
      { initState with jobs := [(1, ⟨42, "sleep 99", "running"⟩)], next_job_id := 2 }
      "bg 1" "1" [] (fun _ => true) false 0 rfl rfl rfl).1 ⟨42, "sleep 99", "running"⟩ rfl
  · exact (bg_raises_unbound_local initState
      "bg 1" "1" [] (fun _ => true) false 0 rfl rfl rfl).2 rfl

/-- C4 counterexample: the claim counts only UNQUOTED pipe operators,
but the code splits the raw text on every `'|'` character (line 783).
The line `foo "a|b"` tokenizes to two words and contains zero unquoted
pipe operators, so the claim requires a single stage; instead the code
enters the pipe branch, splits inside the quotes, and the resulting
unbalanced segments make tokenization raise (no stage is ever built). -/
theorem pipe_split_ignores_quoting_cex :
    pySplit "foo \"a|b\"" = .ok ["foo", "a|b"] ∧
    splitOnChar '|' "foo \"a|b\"" = ["foo \"a", "b\""] ∧
    execute_command initState "foo \"a|b\"" (fun _ => true) false 0 =
      .error (.valueError "No closing quotation") := by
  exact ⟨rfl, rfl, rfl⟩

/-- C4 (amended): for a command line on the external path whose raw text
contains `N` pipe CHARACTERS (quoted or not) and whose `'|'`-separated
segments all tokenize, the builder produces exactly `N + 1` stages, each
segment tokenized independently, and stage `i`'s stdout is a pipe feeding
stage `i + 1`'s stdin for all `i + 1 < N + 1`. -/
theorem pipeline_stage_count_and_wiring (st : ShellState) (command name : String)
    (args : List String) (stages : List (List String)) (alive : Nat → Bool)
    (intr : Bool) (newPid : Nat)
    (hs : pySplit command = .ok (name :: args))
    (hb : isBuiltinName name = false)
    (halias : lookupStr name st.aliases = none)
    (hpipe : containsChar command '|' = true)
    (hstages : buildPipeline command = .ok stages) :
    execute_command st command alive intr newPid = .ok (st, pipelineEffs stages) ∧
    stages.length = countChar '|' command + 1 ∧
    (∀ i, i + 1 < stages.length →
      ∃ s t, (wireStages stages)[i]? = some s ∧
        (wireStages stages)[i + 1]? = some t ∧
        s.stdoutPipe = true ∧ t.stdinFrom = some i) := by
  refine ⟨?_, buildPipeline_length command stages hstages, ?_⟩
  · rw [execute_command_eq_dispatch st command name args alive intr newPid hs halias,
      dispatch_not_builtin st command name args alive intr newPid hb]
    unfold externalDispatch
    simp only [hpipe, if_true, hstages]
  · intro i hi
    have hi0 : i < stages.length := by omega
    refine ⟨mkStage stages.length i (stages.get ⟨i, hi0⟩),
      mkStage stages.length (i + 1) (stages.get ⟨i + 1, hi⟩), ?_, ?_, ?_, ?_⟩
    · rw [wireStages, wireFrom_getElem stages.length stages 0 i,
        List.getElem?_eq_getElem hi0]
      simp [List.get_eq_getElem]
    · rw [wireStages, wireFrom_getElem stages.length stages 0 (i + 1),
        List.getElem?_eq_getElem hi]
      simp [List.get_eq_getElem]
    · simp [mkStage, hi]
    · simp [mkStage]

/-- Witness for C4 (amended) at `aa bb | cc`: one pipe character, two
stages, stage 0's stdout piped into stage 1's stdin. -/
theorem pipeline_stage_count_and_wiring_witness :
    execute_command initState "aa bb | cc" (fun _ => true) false 0 =
      .ok (initState, pipelineEffs [["aa", "bb"], ["cc"]]) ∧
    ([["aa", "bb"], ["cc"]] : List (List String)).length =
      countChar '|' "aa bb | cc" + 1 := by
  have h := pipeline_stage_count_and_wiring initState "aa bb | cc" "aa"
    ["bb", "|", "cc"] [["aa", "bb"], ["cc"]] (fun _ => true) false 0
    rfl rfl rfl rfl rfl
  exact ⟨h.1, h.2.1⟩

/-- C5 counterexample: the claim says every command whose tokens end in
a target-less redirection operator is aborted with a missing-target
error message.  But built-in dispatch happens before the redirection
scan: `echo hi >` is consumed by the `echo` built-in (line 332), which
prints `hi >` — no error message is printed and the command is not
aborted (the true part: nothing is launched and no file is opened). -/
theorem echo_missing_target_no_error_cex :
    execute_command initState "echo hi >" (fun _ => true) false 0 =
      .ok (initState, [.printed "hi >"]) := by
  exact rfl

/-- C5 (amended): for a command on the external (non-built-in) path
whose FIRST redirection operator token is also its last token, the scan
prints the missing-target error for that operator and returns before
anything is opened or launched; the state is unchanged.  A built-in
first word (such as `echo`) bypasses this entirely and handles the
operator as an ordinary argument. -/
theorem external_missing_redirect_target_aborts (st : ShellState)
    (command name op : String) (mid : List String) (alive : Nat → Bool)
    (intr : Bool) (newPid : Nat)
    (hs : pySplit command = .ok (name :: (mid ++ [op])))
    (hb : isBuiltinName name = false)
    (halias : lookupStr name st.aliases = none)
    (hpipe : containsChar command '|' = false)
    (hop : op ∈ redirOps)
    (hname : name ∉ redirOps)
    (hmid : ∀ t ∈ mid, t ∉ redirOps) :
    execute_command st command alive intr newPid =
      .ok (st, [.printed (missingMsg op)]) := by
  rw [execute_command_eq_dispatch st command name (mid ++ [op]) alive intr newPid hs halias,
    dispatch_not_builtin st command name (mid ++ [op]) alive intr newPid hb]
  unfold externalDispatch
  have hscan : redirScan (name :: (mid ++ [op])) [] = .missing (missingMsg op) := by
    rw [show name :: (mid ++ [op]) = (name :: mid) ++ [op] from rfl]
    refine redirScan_missing (name :: mid) [] op hop ?_
    intro t ht
    rcases List.mem_cons.mp ht with rfl | ht2
    · exact hname
    · exact hmid t ht2
  simp only [hpipe, Bool.false_eq_true, if_false, hscan]

/-- Witness for C5 (amended) at `foo hi >` (external command `foo`). -/
theorem external_missing_redirect_target_aborts_witness :
    execute_command initState "foo hi >" (fun _ => true) false 0 =
      .ok (initState,
        [.printed "Error: No file specified for output redirection."]) := by
  exact external_missing_redirect_target_aborts initState "foo hi >" "foo" ">"
    ["hi"] (fun _ => true) false 0 rfl rfl rfl rfl (by decide) (by decide)
    (by decide)

/-- C6 counterexample: the claim covers every single-stage line with a
trailing `&`, but built-in dispatch happens first: `sleep 5 &` is
consumed by the `sleep` built-in (lines 561-569), which blocks in
`time.sleep(5)`; the `&` is merely an ignored extra argument, no job is
registered, and no job id is printed. -/
theorem builtin_sleep_amp_blocks_cex :
    execute_command initState "sleep 5 &" (fun _ => true) false 0 =
      .ok (initState, [.sleptBuiltin 5]) := by
  exact rfl

/-- C6 (amended): for a single-stage command on the external path (first
word not a built-in, no pipe character, no redirection operator) whose
raw text ends in `&` and whose trailing token is `&`, the background
branch (lines 832-841) strips the trailing token, re-tokenizes the
remainder, launches it without a blocking wait, registers it in the job
table under the current `next_job_id` with status `running` and the
stripped command text, prints the job id line, and advances the
counter. -/
theorem external_background_registration (st : ShellState) (command name : String)
    (args bgParts : List String) (alive : Nat → Bool) (intr : Bool) (newPid : Nat)
    (hs : pySplit command = .ok (name :: args))
    (hb : isBuiltinName name = false)
    (halias : lookupStr name st.aliases = none)
    (hpipe : containsChar command '|' = false)
    (hops : ∀ t ∈ name :: args, t ∉ redirOps)
    (_hlast : (name :: args).getLast? = some "&")
    (hamp : endsWithChar command '&' = true)
    (hbg : pySplit (pyStrip (joinWords ((name :: args).dropLast))) = .ok bgParts)
    (hne : bgParts ≠ []) :
    execute_command st command alive intr newPid =
      .ok ({ st with
              jobs := st.jobs ++ [(st.next_job_id,
                ⟨newPid, pyStrip (joinWords ((name :: args).dropLast)), "running"⟩)],
              next_job_id := st.next_job_id + 1 },
           [.spawnedBg bgParts newPid,
            .printed ("[" ++ toString st.next_job_id ++ "] " ++
              pyStrip (joinWords ((name :: args).dropLast)) ++ " &")]) := by
  rw [execute_command_eq_dispatch st command name args alive intr newPid hs halias,
    dispatch_not_builtin st command name args alive intr newPid hb]
  unfold externalDispatch
  rw [redirScan_no_ops (name :: args) [] hops]
  simp only [hpipe, Bool.false_eq_true, if_false, List.reverse_nil, List.nil_append]
  unfold launch
  simp only [hamp, if_true, hbg]
  cases bgParts with
  | nil => exact absurd rfl hne
  | cons b bs => simp

/-- Witness for C6 (amended) at `foo bar &` in the start state: job 1 is
registered running with text `foo bar` and the id line is printed. -/
theorem external_background_registration_witness :
    execute_command initState "foo bar &" (fun _ => true) false 77 =
      .ok ({ initState with
              jobs := [(1, ⟨77, "foo bar", "running"⟩)], next_job_id := 2 },
           [.spawnedBg ["foo", "bar"] 77, .printed "[1] foo bar &"]) := by
  have h := external_background_registration initState "foo bar &" "foo"
    ["bar", "&"] ["foo", "bar"] (fun _ => true) false 77
    rfl rfl rfl rfl (by decide) rfl rfl rfl (by decide)
  simpa using h

/-- C7: `fg <id>` (lines 268-284).  If the job exists it is popped from
the table, its command text printed, and the shell blocks in `wait()`;
a keyboard interrupt during the wait is caught and reported as `^C` and
the trace sends no signal to (and does not kill) the child.  If the id
is unknown, an error is reported and the table is unchanged. -/
theorem fg_removes_and_waits (st : ShellState) (command a : String)
    (rest : List String) (alive : Nat → Bool) (intr : Bool) (newPid : Nat)
    (hs : pySplit command = .ok ("fg" :: a :: rest))
    (halias : lookupStr "fg" st.aliases = none)
    (hd : pyIsDigit a = true) :
    (∀ j, lookupJob (parseNat a) st.jobs = some j →
      execute_command st command alive intr newPid =
        .ok ({ st with jobs := eraseJob (parseNat a) st.jobs },
          .printed j.command :: .waitedOn j.pid ::
            (if intr then [.printed "^C"] else []))) ∧
    (lookupJob (parseNat a) st.jobs = none →
      execute_command st command alive intr newPid =
        .ok (st, [.printed ("fg: job not found: " ++ toString (parseNat a))])) := by
  have heq := execute_command_eq_dispatch st command "fg" (a :: rest) alive intr newPid hs halias
  constructor
  · intro j hj
    rw [heq]
    simp [dispatch, fgBuiltin, hd, hj]
  · intro hj
    rw [heq]
    simp [dispatch, fgBuiltin, hd, hj]

/-- Witness for C7: with job 1 registered, `fg 1` removes it and waits
(with the `^C` report when a keyboard interrupt arrives); with an empty
table, `fg 1` reports and leaves the table unchanged. -/
theorem fg_removes_and_waits_witness :
    execute_command
        { initState with
            jobs := [(1, ⟨42, "sleep 99", "running"⟩)], next_job_id := 2 }
        "fg 1" (fun _ => true) true 0 =
      .ok ({ initState with jobs := [], next_job_id := 2 },
        [.printed "sleep 99", .waitedOn 42, .printed "^C"]) ∧
    execute_command initState "fg 1" (fun _ => true) false 0 =
      .ok (initState, [.printed "fg: job not found: 1"]) := by
  constructor
  · have h := (fg_removes_and_waits
      { initState with jobs := [(1, ⟨42, "sleep 99", "running"⟩)], next_job_id := 2 }
      "fg 1" "1" [] (fun _ => true) true 0 rfl rfl rfl).1
      ⟨42, "sleep 99", "running"⟩ rfl
    simpa using h
  · exact (fg_removes_and_waits initState "fg 1" "1" [] (fun _ => true) false 0
      rfl rfl rfl).2 rfl

/-- C8: `jobs` (lines 261-267) iterates over a snapshot of the table,
polls each job's process, prints one `[id] <Running|Done> <command>`
line per job in table order, and deletes exactly the entries observed
Done; live jobs stay registered.  The id-uniqueness hypothesis is the
invariant the table construction maintains (fresh dict keys). -/
theorem jobs_lists_and_reaps (st : ShellState) (command : String)
    (rest : List String) (alive : Nat → Bool) (intr : Bool) (newPid : Nat)
    (hs : pySplit command = .ok ("jobs" :: rest))
    (halias : lookupStr "jobs" st.aliases = none)
    (hnd : (st.jobs.map Prod.fst).Nodup) :
    execute_command st command alive intr newPid =
      .ok ({ st with jobs := st.jobs.filter (fun p => alive p.2.pid) },
        st.jobs.map (jobLine alive)) := by
  rw [execute_command_eq_dispatch st command "jobs" rest alive intr newPid hs halias]
  simp [dispatch, jobsBuiltin_state_filter alive st.jobs hnd, jobsBuiltin_effects]

/-- Witness for C8: two jobs, pid 42 alive and pid 43 exited; `jobs`
prints both lines and reaps exactly the Done one. -/
theorem jobs_lists_and_reaps_witness :
    execute_command
        { initState with
            jobs := [(1, ⟨42, "sleep 99", "running"⟩), (2, ⟨43, "cat x", "running"⟩)],
            next_job_id := 3 }
        "jobs" (fun pid => pid == 42) false 0 =
      .ok ({ initState with
              jobs := [(1, ⟨42, "sleep 99", "running"⟩)], next_job_id := 3 },
        [.printed "[1] Running sleep 99", .printed "[2] Done cat x"]) := by
  have h := jobs_lists_and_reaps
    { initState with
        jobs := [(1, ⟨42, "sleep 99", "running"⟩), (2, ⟨43, "cat x", "running"⟩)],
        next_job_id := 3 }
    "jobs" [] (fun pid => pid == 42) false 0 rfl rfl (by decide)
  simpa using h

/-- C9: job ids come from the session counter `next_job_id`, initialised
to 1 (line 24).  Every engine step — any `execute_command` outcome and
any signal delivery — either creates no job (counter untouched, table
only shrinks) or creates exactly one job keyed by the current counter
value and advances the counter by exactly one (lines 836-841, 859-862);
nothing ever decreases the counter.  Consequently the counter is
monotone, and since every registered id stays below the counter, a newly
assigned id differs from every id ever assigned before — ids are
monotonically increasing and never reused, even after removal. -/
theorem job_ids_monotone_never_reused :
    initState.next_job_id = 1 ∧
    (∀ (st : ShellState) (command : String) (alive : Nat → Bool) (intr : Bool)
        (newPid : Nat) (st2 : ShellState) (effs : List Eff),
        execute_command st command alive intr newPid = .ok (st2, effs) →
        creationStep st st2) ∧
    (∀ (st : ShellState) (signum : Signum),
        creationStep st (handle_signal st signum).1) ∧
    (∀ st st2 : ShellState, creationStep st st2 →
        st.next_job_id ≤ st2.next_job_id ∧ (jobIdBound st → jobIdBound st2)) :=
  ⟨rfl,
   fun st c al i p st2 e h => execute_command_creation st c al i p st2 e h,
   handle_signal_creation,
   creationStep_mono⟩

/-- Witness for C9: dispatching `foo bar &` from the start state creates
job 1 (the counter value) and advances the counter to 2. -/
theorem job_ids_monotone_never_reused_witness :
    creationStep initState
      { initState with jobs := [(1, ⟨77, "foo bar", "running"⟩)], next_job_id := 2 } ∧
    initState.next_job_id = 1 := by
  constructor
  · have h := job_ids_monotone_never_reused.2.1 initState "foo bar &"
      (fun _ => true) false 77
      { initState with jobs := [(1, ⟨77, "foo bar", "running"⟩)], next_job_id := 2 }
      [.spawnedBg ["foo", "bar"] 77, .printed "[1] foo bar &"] rfl
    exact h
  · exact job_ids_monotone_never_reused.1

/-- C10: for an external `cmd <op> target &` line, the scan opens the
target (truncate for `>`, `2>`, `&>`, append for `>>`) and breaks, so
only `[cmd]` is collected; the background branch then joins
`command_parts[:-1] = []`, whose re-tokenization is empty, so nothing is
launched and no job is registered — but the target file was already
opened, and the `finally` block closes it (twice for `&>`, whose two
redirect slots hold the same handle). -/
theorem redirect_with_amp_opens_file_launches_nothing (st : ShellState)
    (command name op target : String) (alive : Nat → Bool) (intr : Bool)
    (newPid : Nat)
    (hs : pySplit command = .ok [name, op, target, "&"])
    (hb : isBuiltinName name = false)
    (halias : lookupStr name st.aliases = none)
    (hpipe : containsChar command '|' = false)
    (hname : name ∉ redirOps)
    (hop : op ∈ redirOps)
    (hamp : endsWithChar command '&' = true) :
    execute_command st command alive intr newPid =
      .ok (st, .opened target (redirMode op) :: closeEffsOf op target) := by
  rw [execute_command_eq_dispatch st command name [op, target, "&"] alive intr newPid hs halias,
    dispatch_not_builtin st command name [op, target, "&"] alive intr newPid hb]
  unfold externalDispatch
  simp only [redirOps, List.mem_cons, List.not_mem_nil, or_false, not_or] at hname
  obtain ⟨hn1, hn2, hn3, hn4⟩ := hname
  simp only [redirOps, List.mem_cons, List.not_mem_nil, or_false] at hop
  rcases hop with rfl | rfl | rfl | rfl <;>
    simp [hpipe, redirScan, hn1, hn2, hn3, hn4, launch, hamp, redirMode, closeEffsOf,
      joinWords, pyStrip, pySplit, shlexGo]

/-- Witness for C10 at `foo > f.txt &`: the file is opened for
truncate-write and closed, nothing else happens, the state (in
particular the job table and the id counter) is unchanged. -/
theorem redirect_with_amp_opens_file_launches_nothing_witness :
    execute_command initState "foo > f.txt &" (fun _ => true) false 0 =
      .ok (initState, [.opened "f.txt" "w", .closed "f.txt"]) := by
  have h := redirect_with_amp_opens_file_launches_nothing initState
    "foo > f.txt &" "foo" ">" "f.txt" (fun _ => true) false 0
    rfl rfl rfl rfl (by decide) (by decide) rfl
  simpa [redirMode, closeEffsOf] using h

end FlareShell
